import Mathlib

/-!
Verification development for the DDPG/SAC reinforcement-learning agents
(`ddpg_sp/DDPG_class.py`, `sac_sp/SAC_class.py`).

The Python classes are shallowly embedded: numpy buffers become Lean lists,
scalar values become rationals, randomness becomes an explicit stream
argument, and TensorFlow graph nodes relevant to gradient stopping and
update ordering are modelled explicitly.
-/

/-! ## Replay buffer

`ReplayBuffer` is identical in `DDPG_class.py` (lines 11-39) and
`SAC_class.py` (lines 11-39); one embedding serves both.  A transition's
observation/action rows are lists of rationals, reward and done flag are
rationals (the buffer stores `done` as a float32). -/

structure Transition where
  obs : List ℚ
  act : List ℚ
  rew : ℚ
  next_obs : List ℚ
  done : ℚ
deriving DecidableEq

instance : Inhabited Transition := ⟨⟨[], [], 0, [], 0⟩⟩

/-- The five parallel buffers, write cursor `ptr`, logical `size` and the
fixed capacity `max_size`, as laid out in `ReplayBuffer.__init__`. -/
structure ReplayBuffer where
  obs1_buf : List (List ℚ)
  obs2_buf : List (List ℚ)
  acts_buf : List (List ℚ)
  rews_buf : List ℚ
  done_buf : List ℚ
  ptr : Nat
  size : Nat
  max_size : Nat
deriving DecidableEq

/-- `ReplayBuffer.__init__(obs_dim, act_dim, size)`: every buffer is a
zero-filled array of `size` rows, `ptr = size = 0`, `max_size = size`. -/
def ReplayBuffer.init (obs_dim act_dim size : Nat) : ReplayBuffer :=
  { obs1_buf := List.replicate size (List.replicate obs_dim 0)
    obs2_buf := List.replicate size (List.replicate obs_dim 0)
    acts_buf := List.replicate size (List.replicate act_dim 0)
    rews_buf := List.replicate size 0
    done_buf := List.replicate size 0
    ptr := 0
    size := 0
    max_size := size }

/-- `ReplayBuffer.store(obs, act, rew, next_obs, done)` (lines 24-31): write
the five fields at index `ptr`, then `ptr = (ptr + 1) % max_size` and
`size = min(size + 1, max_size)`. -/
def ReplayBuffer.store (b : ReplayBuffer) (obs act : List ℚ) (rew : ℚ)
    (next_obs : List ℚ) (done : ℚ) : ReplayBuffer :=
  { obs1_buf := b.obs1_buf.set b.ptr obs
    obs2_buf := b.obs2_buf.set b.ptr next_obs
    acts_buf := b.acts_buf.set b.ptr act
    rews_buf := b.rews_buf.set b.ptr rew
    done_buf := b.done_buf.set b.ptr done
    ptr := (b.ptr + 1) % b.max_size
    size := min (b.size + 1) b.max_size
    max_size := b.max_size }

/-- `store` applied to a packaged transition. -/
def ReplayBuffer.storeT (b : ReplayBuffer) (t : Transition) : ReplayBuffer :=
  b.store t.obs t.act t.rew t.next_obs t.done

/-- Store a whole list of transitions in order. -/
def ReplayBuffer.storeAll (b : ReplayBuffer) (ts : List Transition) : ReplayBuffer :=
  ts.foldl ReplayBuffer.storeT b

/-- The transition held at cell `j` of the buffer (reading the five parallel
arrays at the same row). -/
def ReplayBuffer.entryAt (b : ReplayBuffer) (j : Nat) : Transition :=
  ⟨b.obs1_buf.getD j [], b.acts_buf.getD j [], b.rews_buf.getD j 0,
   b.obs2_buf.getD j [], b.done_buf.getD j 0⟩

/-- Well-formedness: the five arrays have the capacity as length, the cursor
is in range, and the capacity field matches `C`. -/
def ReplayBuffer.wf (b : ReplayBuffer) (C : Nat) : Prop :=
  b.max_size = C ∧ b.ptr < C ∧ b.obs1_buf.length = C ∧ b.obs2_buf.length = C ∧
    b.acts_buf.length = C ∧ b.rews_buf.length = C ∧ b.done_buf.length = C

theorem ReplayBuffer.wf_init (obs_dim act_dim C : Nat) (hC : 0 < C) :
    (ReplayBuffer.init obs_dim act_dim C).wf C := by
  simp [ReplayBuffer.init, ReplayBuffer.wf, hC]

theorem ReplayBuffer.wf_storeT {b : ReplayBuffer} {C : Nat} (h : b.wf C)
    (t : Transition) : (b.storeT t).wf C := by
  obtain ⟨h1, h2, h3, h4, h5, h6, h7⟩ := h
  refine ⟨h1, ?_, ?_, ?_, ?_, ?_, ?_⟩ <;>
    simp [ReplayBuffer.storeT, ReplayBuffer.store, h1, h3, h4, h5, h6, h7]
  exact h1 ▸ Nat.mod_lt _ (h1 ▸ Nat.pos_of_ne_zero (by omega))

theorem ReplayBuffer.wf_storeAll {b : ReplayBuffer} {C : Nat} (h : b.wf C)
    (ts : List Transition) : (b.storeAll ts).wf C := by
  induction ts generalizing b with
  | nil => exact h
  | cons t ts ih => exact ih (b.wf_storeT h t)

theorem ReplayBuffer.ptr_storeAll {b : ReplayBuffer} {C : Nat} (h : b.wf C)
    (ts : List Transition) : (b.storeAll ts).ptr = (b.ptr + ts.length) % C := by
  induction ts generalizing b with
  | nil => simpa using (Nat.mod_eq_of_lt h.2.1).symm
  | cons t ts ih =>
      have hb' := b.wf_storeT h t
      have : (b.storeT t).ptr = (b.ptr + 1) % C := by
        simp [ReplayBuffer.storeT, ReplayBuffer.store, h.1]
      rw [ReplayBuffer.storeAll, List.foldl_cons, ← ReplayBuffer.storeAll,
        ih hb', this, Nat.mod_add_mod, List.length_cons]
      congr 1
      omega

theorem ReplayBuffer.size_storeAll {b : ReplayBuffer} {C : Nat} (h : b.wf C)
    (hsize : b.size ≤ C) (ts : List Transition) :
    (b.storeAll ts).size = min (b.size + ts.length) C := by
  induction ts generalizing b with
  | nil => simp [ReplayBuffer.storeAll]; omega
  | cons t ts ih =>
      have hb' := b.wf_storeT h t
      have hs' : (b.storeT t).size = min (b.size + 1) C := by
        simp [ReplayBuffer.storeT, ReplayBuffer.store, h.1]
      rw [ReplayBuffer.storeAll, List.foldl_cons, ← ReplayBuffer.storeAll,
        ih hb' (by omega), hs']
      simp only [List.length_cons]
      omega

/-! ### Helper lemmas about `List.set` and `List.getD` -/

theorem getD_set_of_lt {α : Type} (l : List α) (i : Nat) (x d : α)
    (h : i < l.length) : (l.set i x).getD i d = x := by
  rw [List.getD_eq_getElem?_getD, List.getElem?_set_self',
    List.getElem?_eq_getElem h]
  rfl

theorem getD_set_of_ne {α : Type} (l : List α) (i j : Nat) (x d : α)
    (h : i ≠ j) : (l.set i x).getD j d = l.getD j d := by
  rw [List.getD_eq_getElem?_getD, List.getElem?_set_ne h,
    ← List.getD_eq_getElem?_getD]

/-! ### Cell-level characterisation of `storeAll` -/

theorem ReplayBuffer.entryAt_storeT_self {b : ReplayBuffer} {C : Nat}
    (h : b.wf C) (t : Transition) : (b.storeT t).entryAt b.ptr = t := by
  obtain ⟨h1, h2, h3, h4, h5, h6, h7⟩ := h
  simp only [ReplayBuffer.storeT, ReplayBuffer.store, ReplayBuffer.entryAt]
  rw [getD_set_of_lt _ _ _ _ (by omega), getD_set_of_lt _ _ _ _ (by omega),
    getD_set_of_lt _ _ _ _ (by omega), getD_set_of_lt _ _ _ _ (by omega),
    getD_set_of_lt _ _ _ _ (by omega)]

theorem ReplayBuffer.entryAt_storeT_ne {b : ReplayBuffer} (t : Transition)
    {j : Nat} (hj : b.ptr ≠ j) : (b.storeT t).entryAt j = b.entryAt j := by
  simp only [ReplayBuffer.storeT, ReplayBuffer.store, ReplayBuffer.entryAt]
  rw [getD_set_of_ne _ _ _ _ _ hj, getD_set_of_ne _ _ _ _ _ hj,
    getD_set_of_ne _ _ _ _ _ hj, getD_set_of_ne _ _ _ _ _ hj,
    getD_set_of_ne _ _ _ _ _ hj]

theorem ReplayBuffer.ptr_storeT {b : ReplayBuffer} {C : Nat} (h : b.wf C)
    (t : Transition) : (b.storeT t).ptr = (b.ptr + 1) % C := by
  simp [ReplayBuffer.storeT, ReplayBuffer.store, h.1]

/-- Cells whose index is never hit by the cursor during `storeAll` keep
their previous contents. -/
theorem ReplayBuffer.entryAt_storeAll_untouched {C : Nat} (ts : List Transition) :
    ∀ {b : ReplayBuffer}, b.wf C → ∀ {j : Nat},
      (∀ i, i < ts.length → (b.ptr + i) % C ≠ j) →
      (b.storeAll ts).entryAt j = b.entryAt j := by
  induction ts with
  | nil => intro b _ j _; rfl
  | cons t ts ih =>
      intro b hb j hcond
      have hb' := b.wf_storeT hb t
      have hne : b.ptr ≠ j := by
        have h0 := hcond 0 (by simp)
        rwa [Nat.add_zero, Nat.mod_eq_of_lt hb.2.1] at h0
      have hcond' : ∀ i, i < ts.length → ((b.storeT t).ptr + i) % C ≠ j := by
        intro i hi
        rw [b.ptr_storeT hb t, Nat.mod_add_mod]
        have := hcond (1 + i) (by simp; omega)
        rwa [← Nat.add_assoc] at this
      calc (b.storeAll (t :: ts)).entryAt j
          = ((b.storeT t).storeAll ts).entryAt j := rfl
        _ = (b.storeT t).entryAt j := ih hb' hcond'
        _ = b.entryAt j := b.entryAt_storeT_ne t hne

/-- The cell reached by the cursor at step `m` of `storeAll` holds the `m`-th
stored transition, provided no later step revisits that cell. -/
theorem ReplayBuffer.entryAt_storeAll_last {C : Nat} (ts : List Transition) :
    ∀ {b : ReplayBuffer}, b.wf C → ∀ {m : Nat}, m < ts.length →
      (∀ m', m < m' → m' < ts.length → (b.ptr + m') % C ≠ (b.ptr + m) % C) →
      (b.storeAll ts).entryAt ((b.ptr + m) % C) = ts.getD m default := by
  induction ts with
  | nil => intro b _ m hm; simp at hm
  | cons t ts ih =>
      intro b hb m hm hlast
      have hb' := b.wf_storeT hb t
      match m with
      | 0 =>
          have hptr0 : (b.ptr + 0) % C = b.ptr := by
            rw [Nat.add_zero, Nat.mod_eq_of_lt hb.2.1]
          have hcond : ∀ i, i < ts.length → ((b.storeT t).ptr + i) % C ≠ (b.ptr + 0) % C := by
            intro i hi
            rw [b.ptr_storeT hb t, Nat.mod_add_mod]
            have := hlast (1 + i) (by omega) (by simp; omega)
            rwa [← Nat.add_assoc] at this
          calc (b.storeAll (t :: ts)).entryAt ((b.ptr + 0) % C)
              = ((b.storeT t).storeAll ts).entryAt ((b.ptr + 0) % C) := rfl
            _ = (b.storeT t).entryAt ((b.ptr + 0) % C) :=
                ReplayBuffer.entryAt_storeAll_untouched ts hb' hcond
            _ = (b.storeT t).entryAt b.ptr := by rw [hptr0]
            _ = t := b.entryAt_storeT_self hb t
            _ = (t :: ts).getD 0 default := rfl
      | m + 1 =>
          have hkey : ∀ i, ((b.storeT t).ptr + i) % C = (b.ptr + (1 + i)) % C := by
            intro i
            rw [b.ptr_storeT hb t, Nat.mod_add_mod, ← Nat.add_assoc]
          have hlast' : ∀ m', m < m' → m' < ts.length →
              ((b.storeT t).ptr + m') % C ≠ ((b.storeT t).ptr + m) % C := by
            intro m' h1 h2
            rw [hkey, hkey]
            have := hlast (1 + m') (by omega) (by simp; omega)
            have heq1 : b.ptr + (1 + m') = b.ptr + 1 + m' := by omega
            have heq2 : b.ptr + (m + 1) = b.ptr + (1 + m) := by omega
            rw [heq2] at this
            exact this
          have := ih hb' (by simpa using Nat.lt_of_succ_lt_succ (by simpa using hm)) hlast'
          rw [hkey] at this
          have heq : b.ptr + (1 + m) = b.ptr + (m + 1) := by omega
          rw [heq] at this
          calc (b.storeAll (t :: ts)).entryAt ((b.ptr + (m + 1)) % C)
              = ((b.storeT t).storeAll ts).entryAt ((b.ptr + (m + 1)) % C) := rfl
            _ = ts.getD m default := this
            _ = (t :: ts).getD (m + 1) default := by simp [List.getD_cons_succ]

/-- Any two distinct indices within a window of `C` consecutive values have
distinct residues mod `C`. -/
theorem mod_ne_of_lt_window {C m m' : Nat} (h1 : m < m') (h2 : m' - m < C) :
    m' % C ≠ m % C := by
  intro heq
  have hdvd : C ∣ m' - m := (Nat.modEq_iff_dvd' (Nat.le_of_lt h1)).mp heq.symm
  have := Nat.le_of_dvd (by omega) hdvd
  omega


theorem ReplayBuffer.init_ptr (obs_dim act_dim C : Nat) :
    (ReplayBuffer.init obs_dim act_dim C).ptr = 0 := rfl

theorem ReplayBuffer.init_size (obs_dim act_dim C : Nat) :
    (ReplayBuffer.init obs_dim act_dim C).size = 0 := rfl

/-- C1: every `store` writes the five fields at `ptr` then advances
`ptr = (ptr + 1) mod C`, `size = min (size + 1, C)`; after storing `C + k`
transitions (`k ≥ 1`) into a fresh buffer of capacity `C`, the buffer's size
is `C`, its cursor is `k mod C`, cell `m mod C` holds the `m`-th stored
transition for every `m` in `[k, C + k)` (the last `C` transitions, FIFO),
and every cell holds one of those last `C` transitions, so the first `k`
are unrecoverable. -/
theorem replay_buffer_store_fifo
    (C k : Nat) (hC : 0 < C) (hk : 1 ≤ k)
    (b : ReplayBuffer) (hb : b.wf C) (t : Transition)
    (obs_dim act_dim : Nat) (ts : List Transition) (hlen : ts.length = C + k) :
    ((b.storeT t).entryAt b.ptr = t ∧
      (b.storeT t).ptr = (b.ptr + 1) % C ∧
      (b.storeT t).size = min (b.size + 1) C) ∧
    ((ReplayBuffer.init obs_dim act_dim C).storeAll ts).size = C ∧
    ((ReplayBuffer.init obs_dim act_dim C).storeAll ts).ptr = k % C ∧
    (∀ m, k ≤ m → m < C + k →
      ((ReplayBuffer.init obs_dim act_dim C).storeAll ts).entryAt (m % C) =
        ts.getD m default) ∧
    (∀ j, j < C → ∃ m, k ≤ m ∧ m < C + k ∧
      ((ReplayBuffer.init obs_dim act_dim C).storeAll ts).entryAt j =
        ts.getD m default) := by
  have hwf0 := ReplayBuffer.wf_init obs_dim act_dim C hC
  have hcell : ∀ m, k ≤ m → m < C + k →
      ((ReplayBuffer.init obs_dim act_dim C).storeAll ts).entryAt (m % C) =
        ts.getD m default := by
    intro m hkm hm
    have hlast : ∀ m', m < m' → m' < ts.length →
        ((ReplayBuffer.init obs_dim act_dim C).ptr + m') % C ≠
          ((ReplayBuffer.init obs_dim act_dim C).ptr + m) % C := by
      intro m' h1 h2
      rw [ReplayBuffer.init_ptr, Nat.zero_add, Nat.zero_add]
      exact mod_ne_of_lt_window h1 (by omega)
    have := ReplayBuffer.entryAt_storeAll_last ts hwf0 (by omega) hlast
    rwa [ReplayBuffer.init_ptr, Nat.zero_add] at this
  refine ⟨⟨b.entryAt_storeT_self hb t, b.ptr_storeT hb t, ?_⟩, ?_, ?_, hcell, ?_⟩
  · simp [ReplayBuffer.storeT, ReplayBuffer.store, hb.1]
  · rw [ReplayBuffer.size_storeAll hwf0 (by rw [ReplayBuffer.init_size]; omega) ts,
      ReplayBuffer.init_size, hlen]
    omega
  · rw [ReplayBuffer.ptr_storeAll hwf0 ts, ReplayBuffer.init_ptr, Nat.zero_add,
      hlen]
    exact Nat.add_mod_left C k
  · intro j hj
    have hdm := Nat.div_add_mod k C
    have hrlt : k % C < C := Nat.mod_lt k hC
    rcases Nat.lt_or_ge j (k % C) with hcase | hcase
    · refine ⟨j + C * (k / C) + C, by omega, by omega, ?_⟩
      have hmod : (j + C * (k / C) + C) % C = j := by
        have h2 : j + C * (k / C) + C = j + C * (k / C + 1) := by ring
        rw [h2, Nat.add_mul_mod_self_left, Nat.mod_eq_of_lt hj]
      rw [← hcell _ (by omega) (by omega), hmod]
    · refine ⟨j + C * (k / C), by omega, by omega, ?_⟩
      have hmod : (j + C * (k / C)) % C = j := by
        rw [Nat.add_mul_mod_self_left, Nat.mod_eq_of_lt hj]
      rw [← hcell _ (by omega) (by omega), hmod]

/-- Witness for C1: capacity 2, three stored transitions; cell `2 mod 2`
holds the third transition. -/
theorem replay_buffer_store_fifo_witness :
    (0 < 2 ∧ 1 ≤ 1 ∧
      ([⟨[0], [0], 10, [0], 0⟩, ⟨[1], [1], 11, [1], 0⟩,
        ⟨[2], [2], 12, [2], 1⟩] : List Transition).length = 2 + 1) ∧
    ((ReplayBuffer.init 1 1 2).storeAll
        [⟨[0], [0], 10, [0], 0⟩, ⟨[1], [1], 11, [1], 0⟩,
         ⟨[2], [2], 12, [2], 1⟩]).entryAt (2 % 2) =
      ([⟨[0], [0], 10, [0], 0⟩, ⟨[1], [1], 11, [1], 0⟩,
        ⟨[2], [2], 12, [2], 1⟩] : List Transition).getD 2 default :=
  ⟨⟨by decide, by decide, rfl⟩,
   (replay_buffer_store_fifo 2 1 (by decide) (by decide)
      (ReplayBuffer.init 1 1 2) (ReplayBuffer.wf_init 1 1 2 (by decide))
      default 1 1
      [⟨[0], [0], 10, [0], 0⟩, ⟨[1], [1], 11, [1], 0⟩, ⟨[2], [2], 12, [2], 1⟩]
      rfl).2.2.2.1 2 (by decide) (by decide)⟩

/-! ## Batch sampling

`ReplayBuffer.sample_batch` (lines 33-39 of both files) draws
`idxs = np.random.randint(0, self.size, size=batch_size)` and gathers the
five buffers at those rows.  `np.random.randint(low, high, ...)` raises
`ValueError: low >= high` when the half-open range is empty; otherwise each
draw is an independent uniform value in `[low, high)`.  The random draws are
modelled by an explicit stream `rand : Nat → Nat`, draw `i` being reduced
into the range, so every index in `[low, high)` is reachable. -/

structure Batch where
  obs1 : List (List ℚ)
  obs2 : List (List ℚ)
  acts : List (List ℚ)
  rews : List ℚ
  done : List ℚ
deriving DecidableEq

/-- `np.random.randint(low, high, size=n)` over the random stream `rand`. -/
def randint (low high n : Nat) (rand : Nat → Nat) : Except String (List Nat) :=
  if low < high then
    .ok ((List.range n).map fun i => low + rand i % (high - low))
  else
    .error "low >= high"

/-- `ReplayBuffer.sample_batch(batch_size)`. -/
def ReplayBuffer.sample_batch (b : ReplayBuffer) (batch_size : Nat)
    (rand : Nat → Nat) : Except String Batch :=
  (randint 0 b.size batch_size rand).map fun idxs =>
    { obs1 := idxs.map fun i => b.obs1_buf.getD i []
      obs2 := idxs.map fun i => b.obs2_buf.getD i []
      acts := idxs.map fun i => b.acts_buf.getD i []
      rews := idxs.map fun i => b.rews_buf.getD i 0
      done := idxs.map fun i => b.done_buf.getD i 0 }

theorem getD_map_range {α : Type} (f : Nat → α) {n j : Nat} (hj : j < n)
    (d : α) : ((List.range n).map f).getD j d = f j := by
  rw [List.getD_eq_getElem _ _ (by simpa using hj), List.getElem_map,
    List.getElem_range]

/-- C5: sampling from an empty buffer fails fast with the numpy
range error, and sampling from a populated buffer returns five arrays of
the requested length whose rows all come from populated cells
`[0, size)`. -/
theorem sample_batch_empty_fails (b : ReplayBuffer) (n : Nat)
    (rand : Nat → Nat) :
    (b.size = 0 → b.sample_batch n rand = .error "low >= high") ∧
    (0 < b.size → ∃ batch, b.sample_batch n rand = .ok batch ∧
      batch.obs1.length = n ∧ batch.obs2.length = n ∧
      batch.acts.length = n ∧ batch.rews.length = n ∧
      batch.done.length = n ∧
      ∀ j, j < n → ∃ i, i < b.size ∧
        batch.obs1.getD j [] = b.obs1_buf.getD i [] ∧
        batch.obs2.getD j [] = b.obs2_buf.getD i [] ∧
        batch.acts.getD j [] = b.acts_buf.getD i [] ∧
        batch.rews.getD j 0 = b.rews_buf.getD i 0 ∧
        batch.done.getD j 0 = b.done_buf.getD i 0) := by
  constructor
  · intro h0
    simp only [ReplayBuffer.sample_batch, randint, h0, Nat.lt_irrefl, if_false]
    rfl
  · intro hpos
    have hr : randint 0 b.size n rand =
        .ok ((List.range n).map fun i => 0 + rand i % (b.size - 0)) := by
      unfold randint
      rw [if_pos hpos]
    have hrun : b.sample_batch n rand = .ok
        { obs1 := ((List.range n).map fun i => 0 + rand i % (b.size - 0)).map
            fun i => b.obs1_buf.getD i []
          obs2 := ((List.range n).map fun i => 0 + rand i % (b.size - 0)).map
            fun i => b.obs2_buf.getD i []
          acts := ((List.range n).map fun i => 0 + rand i % (b.size - 0)).map
            fun i => b.acts_buf.getD i []
          rews := ((List.range n).map fun i => 0 + rand i % (b.size - 0)).map
            fun i => b.rews_buf.getD i 0
          done := ((List.range n).map fun i => 0 + rand i % (b.size - 0)).map
            fun i => b.done_buf.getD i 0 } := by
      unfold ReplayBuffer.sample_batch
      rw [hr]
      rfl
    refine ⟨_, hrun, by simp, by simp, by simp, by simp, by simp, ?_⟩
    intro j hj
    refine ⟨rand j % b.size, Nat.mod_lt _ hpos, ?_, ?_, ?_, ?_, ?_⟩ <;>
      simp only [List.map_map, Function.comp] <;>
      rw [getD_map_range _ hj] <;>
      simp

/-- C10: whenever at least one transition is stored, `sample_batch`
succeeds and returns five arrays of exactly `n` rows, even when `n`
exceeds the populated size, and the buffer itself is untouched (the
embedding is a pure function of the buffer). -/
theorem sample_batch_with_replacement_ok (b : ReplayBuffer) (n : Nat)
    (rand : Nat → Nat) (hs : 1 ≤ b.size) (hn : 1 ≤ n) :
    ∃ batch, b.sample_batch n rand = .ok batch ∧
      batch.obs1.length = n ∧ batch.obs2.length = n ∧
      batch.acts.length = n ∧ batch.rews.length = n ∧
      batch.done.length = n := by
  obtain ⟨hpos⟩ : ∃ _ : 0 < b.size, True := ⟨hs, trivial⟩
  have hr : randint 0 b.size n rand =
      .ok ((List.range n).map fun i => 0 + rand i % (b.size - 0)) := by
    unfold randint
    rw [if_pos hpos]
  have hrun : b.sample_batch n rand = .ok
      { obs1 := ((List.range n).map fun i => 0 + rand i % (b.size - 0)).map
          fun i => b.obs1_buf.getD i []
        obs2 := ((List.range n).map fun i => 0 + rand i % (b.size - 0)).map
          fun i => b.obs2_buf.getD i []
        acts := ((List.range n).map fun i => 0 + rand i % (b.size - 0)).map
          fun i => b.acts_buf.getD i []
        rews := ((List.range n).map fun i => 0 + rand i % (b.size - 0)).map
          fun i => b.rews_buf.getD i 0
        done := ((List.range n).map fun i => 0 + rand i % (b.size - 0)).map
          fun i => b.done_buf.getD i 0 } := by
    unfold ReplayBuffer.sample_batch
    rw [hr]
    rfl
  exact ⟨_, hrun, by simp, by simp, by simp, by simp, by simp⟩

/-- Witness for C5: a freshly constructed buffer (size 0) makes
`sample_batch` fail. -/
theorem sample_batch_empty_fails_witness :
    (ReplayBuffer.init 1 1 2).size = 0 ∧
    (ReplayBuffer.init 1 1 2).sample_batch 3 (fun i => i) =
      .error "low >= high" :=
  ⟨rfl, (sample_batch_empty_fails (ReplayBuffer.init 1 1 2) 3 (fun i => i)).1 rfl⟩

/-- Witness for C10: one stored transition, batch size 3 > size 1. -/
theorem sample_batch_with_replacement_ok_witness :
    1 ≤ ((ReplayBuffer.init 1 1 2).storeT ⟨[1], [1], 5, [2], 0⟩).size ∧ 1 ≤ 3 ∧
    ∃ batch, ((ReplayBuffer.init 1 1 2).storeT
        ⟨[1], [1], 5, [2], 0⟩).sample_batch 3 (fun i => 7 + i) = .ok batch ∧
      batch.obs1.length = 3 ∧ batch.obs2.length = 3 ∧
      batch.acts.length = 3 ∧ batch.rews.length = 3 ∧ batch.done.length = 3 :=
  ⟨by decide, by decide,
   sample_batch_with_replacement_ok _ 3 (fun i => 7 + i) (by decide) (by decide)⟩

/-! ## Target-network synchronizer

`DDPG_class.py` lines 102-108 and `SAC_class.py` lines 116-128 build
`target_update` as a group of `tf.assign(v_targ, polyak * v_targ +
(1 - polyak) * v_main)` over `zip(get_vars('main'), get_vars('target'))`,
and `target_init` as `tf.assign(v_targ, v_main)` over the same zip, run
once at construction.  `main`/`target` are the flattened lists of every
trainable variable under the two scopes (policy group followed by value
group, in creation order), so one group operation covers both roles. -/

structure ParamSets where
  main : List ℚ
  target : List ℚ
deriving DecidableEq

/-- `target_update`: for every zipped pair, `v_targ ← polyak * v_targ +
(1 - polyak) * v_main`. -/
def ParamSets.target_update (p : ParamSets) (polyak : ℚ) : ParamSets :=
  { main := p.main
    target := (p.main.zip p.target).map fun vt => polyak * vt.2 + (1 - polyak) * vt.1 }

/-- `target_init`: for every zipped pair, `v_targ ← v_main`. -/
def ParamSets.target_init (p : ParamSets) : ParamSets :=
  { p with target := (p.main.zip p.target).map fun vt => vt.1 }

/-- Perturbing the main parameters elementwise by `delta` (the scenario of
the soft-update contraction property). -/
def ParamSets.perturb (p : ParamSets) (delta : List ℚ) : ParamSets :=
  { p with main := p.main.zipWith (· + ·) delta }

theorem getD_zip_map (f : ℚ → ℚ → ℚ) :
    ∀ (l1 l2 : List ℚ) (i : Nat), i < l1.length → i < l2.length →
      ((l1.zip l2).map fun vt => f vt.1 vt.2).getD i 0 =
        f (l1.getD i 0) (l2.getD i 0) := by
  intro l1
  induction l1 with
  | nil => intro l2 i h1 _; simp at h1
  | cons a l1 ih =>
      intro l2 i h1 h2
      match l2, i with
      | b :: l2, 0 => rfl
      | b :: l2, i + 1 =>
          simpa using ih l2 i (by simpa using h1) (by simpa using h2)

theorem getD_zipWith_add :
    ∀ (l1 l2 : List ℚ) (i : Nat), i < l1.length → i < l2.length →
      (l1.zipWith (· + ·) l2).getD i 0 = l1.getD i 0 + l2.getD i 0 := by
  intro l1
  induction l1 with
  | nil => intro l2 i h1 _; simp at h1
  | cons a l1 ih =>
      intro l2 i h1 h2
      match l2, i with
      | b :: l2, 0 => rfl
      | b :: l2, i + 1 =>
          simpa using ih l2 i (by simpa using h1) (by simpa using h2)

/-- C3: `target_init` makes every target parameter equal its main
parameter; `target_update` sets every pair to
`polyak * target + (1 - polyak) * main` across the whole flattened
parameter list (policy and value roles alike); and after `target_init`,
perturbing main by `delta` and applying one `target_update` moves every
target parameter by exactly `(1 - polyak) * delta`. -/
theorem soft_update_contraction (p : ParamSets) (polyak : ℚ)
    (delta : List ℚ) (hlen : p.target.length = p.main.length)
    (hdel : delta.length = p.main.length) :
    p.target_init.target = p.main ∧
    (∀ q : ParamSets, ∀ i, i < q.main.length → i < q.target.length →
      (q.target_update polyak).target.getD i 0 =
        polyak * q.target.getD i 0 + (1 - polyak) * q.main.getD i 0) ∧
    (∀ i, i < p.main.length →
      ((p.target_init.perturb delta).target_update polyak).target.getD i 0 =
        p.target_init.target.getD i 0 + (1 - polyak) * delta.getD i 0) := by
  have hinit : p.target_init.target = p.main := by
    show (p.main.zip p.target).map (fun vt => vt.1) = p.main
    exact List.map_fst_zip p.main p.target (le_of_eq hlen.symm)
  have hgen : ∀ q : ParamSets, ∀ i, i < q.main.length → i < q.target.length →
      (q.target_update polyak).target.getD i 0 =
        polyak * q.target.getD i 0 + (1 - polyak) * q.main.getD i 0 := by
    intro q i h1 h2
    exact getD_zip_map (fun m t => polyak * t + (1 - polyak) * m)
      q.main q.target i h1 h2
  refine ⟨hinit, hgen, ?_⟩
  intro i hi
  have hmain1 : (p.target_init.perturb delta).main =
      p.main.zipWith (· + ·) delta := rfl
  have htarg1 : (p.target_init.perturb delta).target = p.main := hinit
  have hlen1 : i < (p.target_init.perturb delta).main.length := by
    rw [hmain1, List.length_zipWith]
    omega
  have hlen2 : i < (p.target_init.perturb delta).target.length := by
    rw [htarg1]
    exact hi
  rw [hgen _ i hlen1 hlen2, hmain1, htarg1,
    getD_zipWith_add p.main delta i hi (by omega), hinit]
  ring

/-- Witness for C3: two parameters, `polyak = 3/4`, `delta = [4, 6]`;
the first target parameter moves by `(1/4) * 4`. -/
theorem soft_update_contraction_witness :
    (ParamSets.mk [1, 2] [5, 6]).target.length =
      (ParamSets.mk [1, 2] [5, 6]).main.length ∧
    ([4, 6] : List ℚ).length = (ParamSets.mk [1, 2] [5, 6]).main.length ∧
    (((ParamSets.mk [1, 2] [5, 6]).target_init.perturb
        [4, 6]).target_update (3/4)).target.getD 0 0 =
      (ParamSets.mk [1, 2] [5, 6]).target_init.target.getD 0 0 +
        (1 - 3/4) * ([4, 6] : List ℚ).getD 0 0 :=
  ⟨rfl, rfl,
   (soft_update_contraction (ParamSets.mk [1, 2] [5, 6]) (3/4) [4, 6]
      rfl rfl).2.2 0 (by decide)⟩

/-! ## Bootstrap targets and gradient stopping

`DDPG_class.py` line 90: `backup = tf.stop_gradient(self.r_ph + gamma *
(1 - self.d_ph) * q_pi_targ)`; `SAC_class.py` line 94: `q_backup =
tf.stop_gradient(self.r_ph + gamma * (1 - self.d_ph) * v_targ)`.  The
tensor arithmetic is embedded per batch element as an expression tree over
differentiable leaves (`var i` ranges over every trainable parameter,
main networks included); `TFExpr.grad` is the forward symbolic derivative,
with `tf.stop_gradient` blocking all gradient flow, exactly as in
TensorFlow. -/

inductive TFExpr where
  | const : ℚ → TFExpr
  | var : Nat → TFExpr
  | add : TFExpr → TFExpr → TFExpr
  | sub : TFExpr → TFExpr → TFExpr
  | mul : TFExpr → TFExpr → TFExpr
  | stop_gradient : TFExpr → TFExpr
deriving DecidableEq

def TFExpr.eval (θ : Nat → ℚ) : TFExpr → ℚ
  | .const c => c
  | .var i => θ i
  | .add a b => a.eval θ + b.eval θ
  | .sub a b => a.eval θ - b.eval θ
  | .mul a b => a.eval θ * b.eval θ
  | .stop_gradient a => a.eval θ

/-- Derivative of an expression with respect to parameter `i` at `θ`;
`stop_gradient` contributes zero regardless of its argument. -/
def TFExpr.grad (θ : Nat → ℚ) (i : Nat) : TFExpr → ℚ
  | .const _ => 0
  | .var j => if j = i then 1 else 0
  | .add a b => a.grad θ i + b.grad θ i
  | .sub a b => a.grad θ i - b.grad θ i
  | .mul a b => a.grad θ i * b.eval θ + a.eval θ * b.grad θ i
  | .stop_gradient _ => 0

/-- `backup` (DDPG, line 90), per batch element: `r_ph`, `d_ph` are the
placeholder entries and `q_pi_targ` the target critic's value at the next
state, `Q_target(s2, pi_targ(s2))`. -/
def backup (gamma : ℚ) (r_ph d_ph q_pi_targ : TFExpr) : TFExpr :=
  .stop_gradient (.add r_ph (.mul (.const gamma)
    (.mul (.sub (.const 1) d_ph) q_pi_targ)))

/-- `q_backup` (SAC, line 94), per batch element, with `v_targ` the target
value network's output `V_target(s2)`. -/
def q_backup (gamma : ℚ) (r_ph d_ph v_targ : TFExpr) : TFExpr :=
  .stop_gradient (.add r_ph (.mul (.const gamma)
    (.mul (.sub (.const 1) d_ph) v_targ)))

/-- C4: both variants' critic regression targets evaluate to
`r + gamma * (1 - done) * (target value at next state)`, have zero
derivative with respect to every parameter (gradient-stopped, so constant
w.r.t. main parameters in particular), and collapse to exactly `r` when
`done = 1`. -/
theorem bootstrap_target_formula (θ : Nat → ℚ) (gamma : ℚ)
    (r_ph d_ph q_pi_targ v_targ : TFExpr) (i : Nat) :
    (backup gamma r_ph d_ph q_pi_targ).eval θ =
      r_ph.eval θ + gamma * (1 - d_ph.eval θ) * q_pi_targ.eval θ ∧
    (backup gamma r_ph d_ph q_pi_targ).grad θ i = 0 ∧
    (d_ph.eval θ = 1 → (backup gamma r_ph d_ph q_pi_targ).eval θ = r_ph.eval θ) ∧
    (q_backup gamma r_ph d_ph v_targ).eval θ =
      r_ph.eval θ + gamma * (1 - d_ph.eval θ) * v_targ.eval θ ∧
    (q_backup gamma r_ph d_ph v_targ).grad θ i = 0 ∧
    (d_ph.eval θ = 1 → (q_backup gamma r_ph d_ph v_targ).eval θ = r_ph.eval θ) := by
  refine ⟨?_, rfl, ?_, ?_, rfl, ?_⟩
  · simp only [backup, TFExpr.eval]
    ring
  · intro hd
    simp [backup, TFExpr.eval, hd]
  · simp only [q_backup, TFExpr.eval]
    ring
  · intro hd
    simp [q_backup, TFExpr.eval, hd]

/-- Witness for C4: concrete terminal transition (`done = 1`), the target
equals the reward `7`. -/
theorem bootstrap_target_formula_witness :
    (TFExpr.const 1).eval (fun j => j) = 1 ∧
    (backup (99/100) (.const 7) (.const 1) (.var 0)).eval (fun j => j) =
      (TFExpr.const 7).eval (fun j => j) :=
  ⟨rfl,
   (bootstrap_target_formula (fun j => j) (99/100) (.const 7) (.const 1)
      (.var 0) (.var 0) 0).2.2.1 rfl⟩

/-! ## Sub-step ordering inside `learn`

TensorFlow 1.x executes the ops requested in one `Session.run` in an
order constrained only by data/control dependency edges; ops with no
path between them may execute in any order (the SAC file states this
itself: "control dep of train_pi_op because sess.run otherwise evaluates
in nondeterministic order", lines 110 and 117).  Distinct `Session.run`
calls are sequenced by the Python statements.  The graph fragments
relevant to the claim are embedded as finite op types carrying their run
index and their declared dependency edges. -/

inductive DDPGOp where
  | train_q_op
  | train_pi_op
  | target_update
deriving DecidableEq

/-- `DDPG.learn` issues two sequential `sess.run` calls (lines 150 and
152): run 0 contains `train_q_op`; run 1 contains `train_pi_op` and
`target_update`. -/
def DDPGOp.runIndex : DDPGOp → Nat
  | .train_q_op => 0
  | .train_pi_op => 1
  | .target_update => 1

/-- Dependency edges declared among these ops in the DDPG graph: none.
`train_pi_op`/`train_q_op` (lines 99-100) and `target_update`
(lines 103-104) are built without `tf.control_dependencies`, and none
consumes another's output tensor. -/
def DDPGOp.dependsOn : DDPGOp → DDPGOp → Bool := fun _ _ => false

def DDPGOp.all : List DDPGOp := [.train_q_op, .train_pi_op, .target_update]

/-- `b` is reachable from `a` along dependency edges (paths of length at
most two cover a three-node graph). -/
def DDPGOp.reaches (a b : DDPGOp) : Bool :=
  b.dependsOn a || DDPGOp.all.any fun c => c.dependsOn a && b.dependsOn c

/-- TF guarantees that `a` executes strictly before `b` iff `a` sits in an
earlier `Session.run`, or both sit in the same run and `b` transitively
depends on `a`. -/
def DDPGOp.mustPrecede (a b : DDPGOp) : Prop :=
  a.runIndex < b.runIndex ∨ (a.runIndex = b.runIndex ∧ a.reaches b = true)

inductive SACOp where
  | train_pi_op
  | train_value_op
  | target_update
deriving DecidableEq

/-- `SAC.learn` issues a single `sess.run(self.step_ops)` (line 169)
containing all three ops. -/
def SACOp.runIndex : SACOp → Nat := fun _ => 0

/-- Dependency edges declared in the SAC graph: `train_value_op` is built
under `tf.control_dependencies([self.train_pi_op])` (line 113) and
`target_update` under `tf.control_dependencies([self.train_value_op])`
(line 118). -/
def SACOp.dependsOn : SACOp → SACOp → Bool
  | .train_value_op, .train_pi_op => true
  | .target_update, .train_value_op => true
  | _, _ => false

def SACOp.all : List SACOp := [.train_pi_op, .train_value_op, .target_update]

def SACOp.reaches (a b : SACOp) : Bool :=
  b.dependsOn a || SACOp.all.any fun c => c.dependsOn a && b.dependsOn c

def SACOp.mustPrecede (a b : SACOp) : Prop :=
  a.runIndex < b.runIndex ∨ (a.runIndex = b.runIndex ∧ a.reaches b = true)

/-- C2 counterexample: in the DDPG variant, `target_update` is issued in
the same `Session.run` as the actor step `train_pi_op` (line 152) with no
dependency path between them, so the Polyak soft-update is NOT guaranteed
to execute after all gradient steps of the iteration. -/
theorem learn_order_counterexample :
    ¬ DDPGOp.mustPrecede DDPGOp.train_pi_op DDPGOp.target_update := by
  unfold DDPGOp.mustPrecede
  decide

/-- C2 amended: the SAC variant guarantees the actor step before the
value-group step and the target soft-update strictly after both gradient
steps; the DDPG variant guarantees the critic step before the actor step
and before the target update, but guarantees no order in either direction
between the actor step and the target update. -/
theorem learn_order_amended :
    SACOp.mustPrecede SACOp.train_pi_op SACOp.train_value_op ∧
    SACOp.mustPrecede SACOp.train_pi_op SACOp.target_update ∧
    SACOp.mustPrecede SACOp.train_value_op SACOp.target_update ∧
    DDPGOp.mustPrecede DDPGOp.train_q_op DDPGOp.train_pi_op ∧
    DDPGOp.mustPrecede DDPGOp.train_q_op DDPGOp.target_update ∧
    ¬ DDPGOp.mustPrecede DDPGOp.train_pi_op DDPGOp.target_update ∧
    ¬ DDPGOp.mustPrecede DDPGOp.target_update DDPGOp.train_pi_op := by
  unfold SACOp.mustPrecede DDPGOp.mustPrecede
  decide

/-! ## Action selection

`DDPG.get_action` (lines 114-119) and `SAC.get_action` (lines 134-141).
The policy network outputs at the queried state are passed in explicitly:
`pi_s` is the forward pass of `self.pi` (DDPG: deterministic policy; SAC:
sampled stochastic action) and `mu_s` the forward pass of `self.mu` (SAC:
the stochastic policy's mean).  The standard-normal draws of
`np.random.randn(act_dim)` are the explicit list `randn`.  Python's
`if not noise_scale` tests truthiness, i.e. `noise_scale == 0`. -/

/-- `np.clip(x, lo, hi)` elementwise. -/
def clip (x lo hi : ℚ) : ℚ := min (max x lo) hi

/-- `DDPG.get_action(s, noise_scale)`: when `noise_scale` is falsy (zero)
it is REPLACED by `self.action_noise` (line 115-116), then
`a = pi(s) + noise_scale * randn` is clipped to `[-act_limit, act_limit]`. -/
def DDPG.get_action (action_noise act_limit : ℚ) (pi_s : List ℚ)
    (noise_scale : ℚ) (randn : List ℚ) : List ℚ :=
  let ns := if noise_scale = 0 then action_noise else noise_scale
  pi_s.zipWith (fun a n => clip (a + ns * n) (-act_limit) act_limit) randn

/-- `SAC.get_action(s, noise_scale)`: when `noise_scale` is falsy (zero)
the mean output `self.mu` is evaluated, otherwise the sampled output
`self.pi`; then `a = act + noise_scale * randn` is clipped to
`[-act_limit, act_limit]`. -/
def SAC.get_action (act_limit : ℚ) (mu_s pi_s : List ℚ)
    (noise_scale : ℚ) (randn : List ℚ) : List ℚ :=
  let a := if noise_scale = 0 then mu_s else pi_s
  a.zipWith (fun x n => clip (x + noise_scale * n) (-act_limit) act_limit) randn

/-- C6, code bug exhibited concretely.  With the default
`action_noise = 1/10`, `act_limit = 1`, policy output `[0]` and a
standard-normal draw `[1]`, `DDPG.get_action` at `noise_scale = 0`
returns `[1/10]`: the zero noise scale is replaced by `action_noise`, so
the result is NOT the noise-free clipped policy output `[0]` — even
though `test_agent` (line 131) comments "Take deterministic actions at
test time (noise_scale=0)".  The SAC variant behaves as the claim states:
it selects the mean output `mu` and adds exactly `0 * randn`. -/
theorem get_action_zero_noise_divergence :
    DDPG.get_action (1/10) 1 [0] 0 [1] = [1/10] ∧
    ((1 : ℚ)/10 ≠ 0) ∧
    clip 0 (-1) 1 = 0 ∧
    SAC.get_action 1 [0] [5] 0 [1] = [clip 0 (-1) 1] := by
  refine ⟨?_, by norm_num, ?_, ?_⟩ <;>
    simp [DDPG.get_action, SAC.get_action, clip] <;> norm_num

theorem exists_of_mem_zipWith {α β γ : Type} {f : α → β → γ} :
    ∀ {l1 : List α} {l2 : List β} {x : γ}, x ∈ List.zipWith f l1 l2 →
      ∃ a b, x = f a b := by
  intro l1
  induction l1 with
  | nil => intro l2 x h; simp at h
  | cons a l1 ih =>
      intro l2 x h
      cases l2 with
      | nil => simp at h
      | cons b l2 =>
          rcases List.mem_cons.mp h with h | h
          · exact ⟨a, b, h⟩
          · exact ih h

theorem clip_bounds (x l : ℚ) (hl : 0 ≤ l) :
    -l ≤ clip x (-l) l ∧ clip x (-l) l ≤ l :=
  ⟨le_min_iff.mpr ⟨le_max_right x (-l), neg_le_self hl⟩, min_le_right _ _⟩

/-- C7: for any policy outputs, any noise draws and any
`noise_scale ≥ 0`, both variants' `get_action` outputs lie elementwise in
`[-act_limit, act_limit]` (given the action bound is nonnegative, as it
is for a gym action space). -/
theorem get_action_within_limits (action_noise act_limit noise_scale : ℚ)
    (pi_s mu_s randn : List ℚ) (hl : 0 ≤ act_limit)
    (hn : 0 ≤ noise_scale) :
    (∀ x ∈ DDPG.get_action action_noise act_limit pi_s noise_scale randn,
      -act_limit ≤ x ∧ x ≤ act_limit) ∧
    (∀ x ∈ SAC.get_action act_limit mu_s pi_s noise_scale randn,
      -act_limit ≤ x ∧ x ≤ act_limit) := by
  constructor <;>
  · intro x hx
    simp only [DDPG.get_action, SAC.get_action] at hx
    obtain ⟨a, b, rfl⟩ := exists_of_mem_zipWith hx
    exact clip_bounds _ _ hl

/-- Witness for C7: policy output `5`, noise scale `2`, draw `1`,
`act_limit = 1`; the clipped output `1` lies in `[-1, 1]`. -/
theorem get_action_within_limits_witness :
    (0 : ℚ) ≤ 1 ∧ (0 : ℚ) ≤ 2 ∧
    (1 : ℚ) ∈ DDPG.get_action (1/10) 1 [5] 2 [1] ∧
    (-(1 : ℚ) ≤ 1 ∧ (1 : ℚ) ≤ 1) :=
  ⟨by norm_num, by norm_num, by simp [DDPG.get_action, clip]; norm_num,
   (get_action_within_limits (1/10) 1 2 [5] [5] [1] (by norm_num)
      (by norm_num)).1 1 (by simp [DDPG.get_action, clip]; norm_num)⟩

/-! ## Training driver: truncation handling

`DDPG_class.py` line 225 (inside the `__main__` episode loop):
`done = False if j == args.max_steps - 1 else done`.  The step index `j`
ranges over `range(args.max_steps)`. -/

/-- The `done` flag actually stored for the transition at step `j`. -/
def driver_stored_done (max_steps j : Nat) (done : Bool) : Bool :=
  if j = max_steps - 1 then false else done

/-- C8: at the last step of an episode the stored `done` is `false`
(in particular when the limit, not a true terminal, ended the episode),
and at any earlier step an environment-reported `done = true` is stored
unchanged. -/
theorem driver_truncation_done (max_steps j : Nat) (done : Bool) :
    (j = max_steps - 1 → driver_stored_done max_steps j done = false) ∧
    (j ≠ max_steps - 1 → driver_stored_done max_steps j done = done) := by
  constructor <;> intro h <;> simp [driver_stored_done, h]

/-- Witness for C8: step limit 1000; the flag is cleared at step 999 and
kept (`true`) at step 500. -/
theorem driver_truncation_done_witness :
    (999 = 1000 - 1 → driver_stored_done 1000 999 true = false) ∧
    (driver_stored_done 1000 999 true = false) ∧
    (driver_stored_done 1000 500 true = true) :=
  ⟨(driver_truncation_done 1000 999 true).1,
   (driver_truncation_done 1000 999 true).1 (by decide),
   (driver_truncation_done 1000 500 true).2 (by decide)⟩

/-! ## Agent construction and hyperparameter validation

`DDPG.__init__` (lines 43-112) and `SAC.__init__` (lines 43-132) contain
no validation of `polyak`, `batch_size`, `gamma` or `replay_size`: every
value is stored or baked into the graph as given.  The only way those
inputs can abort construction is the replay-buffer allocation
`np.zeros([size, obs_dim])`, which raises
`ValueError: negative dimensions are not allowed` when `replay_size` is
negative; a zero capacity allocates empty arrays and succeeds.  The
constructors are embedded as functions returning the stored configuration
or the allocation error. -/

structure DDPGState where
  learn_step : Nat
  obs_dim : Nat
  act_dim : Nat
  act_limit : ℚ
  policy_delay : Nat
  action_noise : ℚ
  gamma : ℚ
  polyak : ℚ
  batch_size : Int
  replay_buffer : ReplayBuffer
deriving DecidableEq

/-- `DDPG.__init__(a_dim, obs_dim, a_bound, replay_size, gamma, polyak,
batch_size, act_noise, policy_delay)`: no hyperparameter check; fails only
on a negative buffer allocation. -/
def DDPG.construct (a_dim obs_dim : Nat) (a_bound : ℚ) (replay_size : Int)
    (gamma polyak : ℚ) (batch_size : Int) (act_noise : ℚ)
    (policy_delay : Nat) : Except String DDPGState :=
  if replay_size < 0 then
    .error "negative dimensions are not allowed"
  else
    .ok { learn_step := 0
          obs_dim := obs_dim
          act_dim := a_dim
          act_limit := a_bound
          policy_delay := policy_delay
          action_noise := act_noise
          gamma := gamma
          polyak := polyak
          batch_size := batch_size
          replay_buffer := ReplayBuffer.init obs_dim a_dim replay_size.toNat }

structure SACState where
  learn_step : Nat
  obs_dim : Nat
  act_dim : Nat
  act_limit : ℚ
  policy_delay : Nat
  action_noise : ℚ
  gamma : ℚ
  polyak : ℚ
  alpha : ℚ
  batch_size : Int
  replay_buffer : ReplayBuffer
deriving DecidableEq

/-- `SAC.__init__` with the additional entropy temperature `alpha`;
likewise unvalidated. -/
def SAC.construct (a_dim obs_dim : Nat) (a_bound : ℚ) (replay_size : Int)
    (gamma polyak alpha : ℚ) (batch_size : Int) (act_noise : ℚ)
    (policy_delay : Nat) : Except String SACState :=
  if replay_size < 0 then
    .error "negative dimensions are not allowed"
  else
    .ok { learn_step := 0
          obs_dim := obs_dim
          act_dim := a_dim
          act_limit := a_bound
          policy_delay := policy_delay
          action_noise := act_noise
          gamma := gamma
          polyak := polyak
          alpha := alpha
          batch_size := batch_size
          replay_buffer := ReplayBuffer.init obs_dim a_dim replay_size.toNat }

/-- C9 counterexample: `polyak = 2` (outside `(0,1)`), `batch_size = 0`
and `replay_size = 0` are all invalid by the claim, yet both constructors
return successfully instead of failing. -/
theorem construct_accepts_invalid_hyperparameters :
    (DDPG.construct 1 1 1 0 (99/100) 2 0 (1/10) 2).isOk = true ∧
    (SAC.construct 1 1 1 0 (99/100) 2 (1/5) 0 (1/10) 2).isOk = true ∧
    ¬ (0 < (2 : ℚ) ∧ (2 : ℚ) < 1) ∧ (0 : Int) ≤ 0 := by
  refine ⟨rfl, rfl, ?_, le_refl 0⟩
  rintro ⟨-, h⟩
  norm_num at h

/-- C9 amended: construction performs no eager hyperparameter validation;
it fails only when the replay capacity is negative (numpy rejects negative
array dimensions), and accepts any `polyak`, any `batch_size` and a zero
capacity. -/
theorem construct_no_validation (a_dim obs_dim : Nat) (a_bound : ℚ)
    (replay_size : Int) (gamma polyak alpha : ℚ) (batch_size : Int)
    (act_noise : ℚ) (policy_delay : Nat) :
    (DDPG.construct a_dim obs_dim a_bound replay_size gamma polyak
        batch_size act_noise policy_delay).isOk =
      decide (0 ≤ replay_size) ∧
    (SAC.construct a_dim obs_dim a_bound replay_size gamma polyak alpha
        batch_size act_noise policy_delay).isOk =
      decide (0 ≤ replay_size) := by
  constructor <;>
    · simp only [DDPG.construct, SAC.construct]
      rcases Int.lt_or_le replay_size 0 with h | h
      · rw [if_pos h]
        simp [Except.isOk, Except.toBool]
        omega
      · rw [if_neg (by omega)]
        simp [Except.isOk, Except.toBool]
        omega
